import Mathlib

set_option maxRecDepth 100000

/-!
Shallow embedding of `.github/actions/aggregate-sanity-results/aggregate_results.py`
and `.github/actions/aggregate-sanity-results/strip_ansi.py`.

Python strings are modelled as `String` / `List Char`; `re.sub` with the concrete
patterns of the source is modelled by dedicated left-to-right scanners with the
exact non-overlapping leftmost-match semantics of Python's `re.sub` (for these
patterns the regex backtracking is deterministic, since in every pattern the
starred character class is disjoint from the character that must follow it).
Machine integers do not occur: all counts are Python `int`s obtained from `\d+`
matches and additions, hence naturals.
-/

namespace SanityAgg

/-- ASCII whitespace, as matched by Python's `str.strip()` and `\s` on the
ASCII range (the logs are ASCII): space, tab, LF, CR, vertical tab, form feed. -/
def isPyWs (c : Char) : Bool :=
  c = ' ' || c = '\t' || c = '\n' || c = '\x0d' || c = '\x0b' || c = '\x0c'

/-- Python `str.strip()` on a character list. -/
def pyStripChars (l : List Char) : List Char :=
  ((l.dropWhile isPyWs).reverse.dropWhile isPyWs).reverse

/-- Python `str.strip()`. -/
def pyStrip (s : String) : String :=
  ⟨pyStripChars s.data⟩

/-- Python `needle in hay` substring test on character lists. -/
def containsSub : List Char → List Char → Bool
  | hay, needle =>
    needle.isPrefixOf hay ||
      match hay with
      | [] => false
      | _ :: t => containsSub t needle

/-- Python `needle in hay` on strings. -/
def pyContains (hay needle : String) : Bool :=
  containsSub hay.data needle.data

/-- Python `content.split("\n")` on a character list. -/
def splitLinesChars : List Char → List (List Char)
  | [] => [[]]
  | c :: cs =>
    if c = '\n' then [] :: splitLinesChars cs
    else
      match splitLinesChars cs with
      | h :: t => (c :: h) :: t
      | [] => [[c]]

/-- Fuel-based worker for `pyReplaceChars`: every step consumes at least one
character and exactly one unit of fuel, so with `fuel = l.length` the fuel
never runs out before the list does (structural recursion, so that concrete
inputs evaluate inside the kernel). -/
def pyReplaceCharsAux (old new : List Char) : Nat → List Char → List Char
  | 0, l => l
  | _ + 1, [] => []
  | fuel + 1, c :: cs =>
    if old.isPrefixOf (c :: cs) then
      new ++ pyReplaceCharsAux old new fuel (cs.drop (old.length - 1))
    else
      c :: pyReplaceCharsAux old new fuel cs

/-- Python `s.replace(old, new)` (all non-overlapping leftmost occurrences);
`old` is nonempty at every use site in the source. -/
def pyReplaceChars (old new l : List Char) : List Char :=
  pyReplaceCharsAux old new l.length l

/-- Python `s.replace(old, new)` on strings. -/
def pyReplace (s old new : String) : String :=
  ⟨pyReplaceChars old.data new.data s.data⟩

/-- Fuel-based worker for `pySplitChars` (same fuel discipline as
`pyReplaceCharsAux`). -/
def pySplitCharsAux (sep : List Char) : Nat → List Char → List (List Char)
  | 0, l => [l]
  | _ + 1, [] => [[]]
  | fuel + 1, c :: cs =>
    if sep.isPrefixOf (c :: cs) then
      [] :: pySplitCharsAux sep fuel (cs.drop (sep.length - 1))
    else
      match pySplitCharsAux sep fuel cs with
      | h :: t => (c :: h) :: t
      | [] => [[c]]

/-- Python `s.split(sep)` for a nonempty separator, on character lists. -/
def pySplitChars (sep l : List Char) : List (List Char) :=
  pySplitCharsAux sep l.length l

/-- Python `s.split(sep)[-1]` (the separator occurs in test identifiers, and
`split` always returns a nonempty list; the `""` default is unreachable). -/
def pySplitLast (s sep : String) : String :=
  ⟨(pySplitChars sep.data s.data).getLastD []⟩

/-! ### The `re.sub` scanners for the ANSI-stripping patterns -/

/-- `[0-9;]` (identical to `[\d;]` on ASCII input). -/
def isDigitSemi (c : Char) : Bool :=
  c.isDigit || c = ';'

/-- Length of the maximal `[0-9;]*` run and the remainder. -/
def digitSemiRun : List Char → Nat × List Char
  | [] => (0, [])
  | c :: cs =>
    if isDigitSemi c then
      let (n, r) := digitSemiRun cs
      (n + 1, r)
    else
      (0, c :: cs)

/-- Match length of `\x1b\[[0-9;]*[a-zA-Z]` at the head of the list
(`\033` is the same character as `\x1b`, so the second pattern of the source
is a second pass of this one). -/
def csiLen : List Char → Option Nat
  | '\x1b' :: '[' :: rest =>
    let (n, r) := digitSemiRun rest
    match r with
    | c :: _ => if c.isAlpha then some (n + 3) else none
    | [] => none
  | _ => none

/-- Match length of `\[[\d;]*m` at the head of the list. -/
def bracketMLen : List Char → Option Nat
  | '[' :: rest =>
    let (n, r) := digitSemiRun rest
    match r with
    | c :: _ => if c = 'm' then some (n + 2) else none
    | [] => none
  | _ => none

/-- Match length of `\[[\d;]*[a-zA-Z]` at the head of the list. -/
def bracketAlphaLen : List Char → Option Nat
  | '[' :: rest =>
    let (n, r) := digitSemiRun rest
    match r with
    | c :: _ => if c.isAlpha then some (n + 2) else none
    | [] => none
  | _ => none

/-- Distance to (and including) the first BEL character, if any. -/
def toBel : List Char → Option Nat
  | [] => none
  | c :: cs =>
    if c = '\x07' then some 1 else (toBel cs).map (· + 1)

/-- Match length of `\x1b\][^\x07]*\x07` at the head of the list. -/
def oscBelLen : List Char → Option Nat
  | '\x1b' :: ']' :: rest => (toBel rest).map (· + 2)
  | _ => none

/-- Length of the maximal run of non-ESC characters and the remainder. -/
def nonEscRun : List Char → Nat × List Char
  | [] => (0, [])
  | c :: cs =>
    if c = '\x1b' then (0, c :: cs)
    else
      let (n, r) := nonEscRun cs
      (n + 1, r)

/-- Match length of `\x1b\][^\x1b]*\x1b\\` at the head of the list. -/
def oscStLen : List Char → Option Nat
  | '\x1b' :: ']' :: rest =>
    let (n, r) := nonEscRun rest
    match r with
    | '\x1b' :: '\\' :: _ => some (n + 4)
    | _ => none
  | _ => none

/-- Match length of `\x1b[^\[]` at the head of the list. -/
def escOtherLen : List Char → Option Nat
  | '\x1b' :: c :: _ => if c = '[' then none else some 2
  | _ => none

/-- Fuel-based worker for `scanSub` (same fuel discipline as
`pyReplaceCharsAux`: one unit of fuel per consumed position). -/
def scanSubAux (m : List Char → Option Nat) : Nat → List Char → List Char
  | 0, l => l
  | _ + 1, [] => []
  | fuel + 1, c :: cs =>
    match m (c :: cs) with
    | some n => scanSubAux m fuel (cs.drop (n - 1))
    | none => c :: scanSubAux m fuel cs

/-- `re.sub(pattern, "", text)`: scan left to right; on a match (its length
given by `m`, always at least 1 for the patterns above) drop it and resume
after it, otherwise keep the character. -/
def scanSub (m : List Char → Option Nat) (l : List Char) : List Char :=
  scanSubAux m l.length l

/-- `strip_ansi_codes` of `aggregate_results.py`: the four `re.sub` passes
(the `\x1b\[...` and `\033\[...` patterns are the same regex, applied twice). -/
def strip_ansi_codes (text : String) : String :=
  ⟨scanSub bracketAlphaLen
    (scanSub bracketMLen
      (scanSub csiLen
        (scanSub csiLen text.data)))⟩

/-- `strip_ansi_codes` of `strip_ansi.py`: five `re.sub` passes. -/
def strip_ansi_codes_file (text : String) : String :=
  ⟨scanSub escOtherLen
    (scanSub oscStLen
      (scanSub oscBelLen
        (scanSub csiLen
          (scanSub csiLen text.data))))⟩

/-! ### Per-line regex matchers of `parse_pytest_log` -/

/-- Maximal run of a character class and the remainder. -/
def classRun (p : Char → Bool) : List Char → Nat × List Char
  | [] => (0, [])
  | c :: cs =>
    if p c then
      let (n, r) := classRun p cs
      (n + 1, r)
    else
      (0, c :: cs)

/-- `re.search`: try the position matcher at every position, left to right
(all patterns used here need at least one character, so the end position
never matches and is not tried). -/
def searchScan (f : List Char → Option α) : List Char → Option α
  | [] => none
  | c :: cs =>
    match f (c :: cs) with
    | some r => some r
    | none => searchScan f cs

/-- Group 1 of `re.match(r"^(suite/apps/[^\[]*\[[^\]]+\])", line)`: the prefix
literal, then everything up to the first `[` (which must exist), then at least
one non-`]` character, then the first following `]`.  The starred classes are
disjoint from the required follow-up characters, so Python's backtracking is
deterministic here. -/
def testNameMatch (l : List Char) : Option (List Char) :=
  if ("suite/apps/".data).isPrefixOf l then
    match l.span (fun c => !(c = '[')) with
    | (a, '[' :: rest) =>
      match rest.span (fun c => !(c = ']')) with
      | (_ :: _, ']' :: _) =>
        some (a ++ '[' :: ((rest.span (fun c => !(c = ']'))).1 ++ [']']))
      | _ => none
    | _ => none
  else none

/-- The three result literals, in the alternation order of the source's
regexes (`PASSED|FAILED|ERROR`). -/
def resultLiterals : List String := ["PASSED", "FAILED", "ERROR"]

/-- Position matcher for `(PASSED|FAILED|ERROR)\s+\[\s*\d+%\]`: result word,
one or more whitespace, `[`, optional whitespace, one or more digits, `%]`. -/
def resultPatALen (l : List Char) : Option String :=
  (resultLiterals.filter (fun w => (w.data).isPrefixOf l)).head?.bind fun w =>
    let rest := l.drop w.data.length
    match classRun isPyWs rest with
    | (0, _) => none
    | (_ + 1, '[' :: r2) =>
      match classRun isPyWs r2 with
      | (_, r3) =>
        match classRun Char.isDigit r3 with
        | (0, _) => none
        | (_ + 1, '%' :: ']' :: _) => some w
        | _ => none
    | _ => none

/-- Position matcher for `\[\s*\d+%\]` (the tail the `.*` of the second
result pattern must eventually reach). -/
def percentBracketAt (l : List Char) : Option Unit :=
  match l with
  | '[' :: r =>
    match classRun isPyWs r with
    | (_, r2) =>
      match classRun Char.isDigit r2 with
      | (0, _) => none
      | (_ + 1, '%' :: ']' :: _) => some ()
      | _ => none
  | _ => none

/-- Position matcher for `\[[\d;]*m(PASSED|FAILED|ERROR)\[[\d;]*m.*\[\s*\d+%\]`:
the greedy `.*` (no newline inside a line) succeeds exactly when `\[\s*\d+%\]`
matches at some position in the remaining suffix. -/
def resultPatBLen (l : List Char) : Option String :=
  match l with
  | '[' :: r =>
    match digitSemiRun r with
    | (_, 'm' :: r2) =>
      (resultLiterals.filter (fun w => (w.data).isPrefixOf r2)).head?.bind fun w =>
        match r2.drop w.data.length with
        | '[' :: r3 =>
          match digitSemiRun r3 with
          | (_, 'm' :: r4) => (searchScan percentBracketAt r4).map fun _ => w
          | _ => none
        | _ => none
    | _ => none
  | _ => none

/-- The separate-line result search: pattern 1 first, then pattern 2, as in
the source's `result_patterns` loop. -/
def searchResult (l : List Char) : Option String :=
  match searchScan resultPatALen l with
  | some r => some r
  | none => searchScan resultPatBLen l

/-- `re.search(r"(\d+) <word>", line)`: leftmost maximal digit run followed by
the literal; returns the numeric value of group 1. -/
def searchNumThen (lit : List Char) (l : List Char) : Option Nat :=
  searchScan
    (fun l' =>
      match classRun Char.isDigit l' with
      | (0, _) => none
      | (n + 1, r) =>
        if lit.isPrefixOf r then
          some ((l'.take (n + 1)).foldl (fun a c => a * 10 + (c.toNat - 48)) 0)
        else none)
    l

/-- Characters of the `[\d:.]` class of the time regex. -/
def isTimeChar (c : Char) : Bool :=
  c.isDigit || c = ':' || c = '.'

/-- `re.search(r"in ([\d:.]+)s", line)`: leftmost `in ` followed by a nonempty
`[\d:.]` run followed by `s`; returns group 1. -/
def searchTime (l : List Char) : Option (List Char) :=
  searchScan
    (fun l' =>
      if ("in ".data).isPrefixOf l' then
        match classRun isTimeChar (l'.drop 3) with
        | (0, _) => none
        | (n + 1, 's' :: _) => some ((l'.drop 3).take (n + 1))
        | _ => none
      else none)
    l

/-- Index of the last occurrence of a character (`str.rfind` when found). -/
def rfindIdx (ch : Char) : List Char → Option Nat
  | [] => none
  | x :: xs =>
    match rfindIdx ch xs with
    | some i => some (i + 1)
    | none => if x = ch then some 0 else none

/-! ### The individual-result counting loop of `parse_pytest_log` -/

/-- State of the `for i, line in enumerate(lines)` loop: the three counters
and `current_test`. -/
structure LoopSt where
  passed : Nat
  failed : Nat
  errors : Nat
  current : Option (List Char)
deriving DecidableEq

/-- The `if "PASSED" in line: ... elif "FAILED" ... elif "ERROR"` cascade. -/
def resultIn (l : List Char) : String :=
  if containsSub l ("PASSED".data) then "PASSED"
  else if containsSub l ("FAILED".data) then "FAILED"
  else "ERROR"

/-- Bump the counter named by the result word. -/
def bump (st : LoopSt) (r : String) : LoopSt :=
  if r = "PASSED" then { st with passed := st.passed + 1 }
  else if r = "FAILED" then { st with failed := st.failed + 1 }
  else if r = "ERROR" then { st with errors := st.errors + 1 }
  else st

/-- One iteration of the counting loop (lines 112-230 of the source).  In the
separate-line branch the counter is bumped whether or not `current_test` is
set, and `current_test` is `None` afterwards in either case. -/
def stepLine (st : LoopSt) (rawLine : List Char) : LoopSt :=
  let line := pyStripChars rawLine
  if line.isEmpty then st
  else if ("suite/apps/".data).isPrefixOf line && containsSub line ("::".data) then
    if containsSub line ("PASSED".data) || containsSub line ("FAILED".data) ||
        containsSub line ("ERROR".data) then
      match testNameMatch line with
      | some _ => { bump st (resultIn line) with current := none }
      | none => st
    else
      let ct :=
        if ([']']).isSuffixOf line then line
        else
          match rfindIdx ']' line with
          | some p => if p > 0 then line.take (p + 1) else line
          | none => line
      { st with current := some ct }
  else
    match searchResult line with
    | some r => { bump st r with current := none }
    | none => st

/-! ### Summary line, time, failure details -/

/-- The summary-line test of lines 248-252 of the source: the stripped line
starts with `==` and ends with `===`, and the raw line contains `failed` or
`passed`. -/
def isSummaryLine (line : List Char) : Bool :=
  ("==".data).isPrefixOf (pyStripChars line) &&
    ("===".data).isSuffixOf (pyStripChars line) &&
    (containsSub line ("failed".data) || containsSub line ("passed".data))

/-- Summary counts and elapsed time: from the first summary line (the loop
breaks after it); each count defaults to 0 and the time to `N/A`. -/
def summaryData (lines : List (List Char)) : Nat × Nat × Nat × String :=
  match lines.find? isSummaryLine with
  | none => (0, 0, 0, "N/A")
  | some line =>
    ((searchNumThen (" passed".data) line).getD 0,
     (searchNumThen (" failed".data) line).getD 0,
     (searchNumThen (" error".data) line).getD 0,
     match searchTime line with
     | some t => String.mk t ++ "s"
     | none => "N/A")

/-- State of the `short test summary info` extraction loop. -/
structure DetailSt where
  inSec : Bool
  brk : Bool
  acc : List String
deriving DecidableEq

/-- One iteration of the failure-details loop (lines 316-337 of the source). -/
def detailStep (st : DetailSt) (rawLine : List Char) : DetailSt :=
  if st.brk then st
  else
    let ls := pyStripChars rawLine
    if containsSub ls ("short test summary info".data) then { st with inSec := true }
    else if st.inSec && ("==".data).isPrefixOf ls then { st with brk := true }
    else if st.inSec &&
        (("FAILED ".data).isPrefixOf ls || ("ERROR ".data).isPrefixOf ls) then
      match ls.span (fun c => !(c = ' ')) with
      | (p0, ' ' :: rest) =>
        { st with
          acc := st.acc ++ [String.mk (p0 ++ (": ".data) ++ pyStripChars rest)] }
      | _ => st
    else st

/-! ### `parse_pytest_log` -/

/-- The four status strings of the source (copied byte for byte from the
source file, whose emoji are stored in a double-encoded form). -/
def FAIL_STATUS : String := "âŒ FAIL"

/-- `"... PASS"` status string of the source. -/
def PASS_STATUS : String := "âœ… PASS"

/-- `"... NO LOG"` status string of the source. -/
def NO_LOG_STATUS : String := "âš ï¸ NO LOG"

/-- `"... ERROR"` status string of the source. -/
def ERROR_STATUS : String := "âš ï¸ ERROR"

/-- Result dictionary of `parse_pytest_log`. -/
structure PyResult where
  status : String
  passed : Nat
  failed : Nat
  errors : Nat
  time : String
  log_exists : Bool
  failure_details : List String
deriving DecidableEq

/-- The individual-parsing counters for a content string (the
`individual_passed/failed/errors` of the source). -/
def individualCounts (content : List Char) : LoopSt :=
  (splitLinesChars content).foldl stepLine ⟨0, 0, 0, none⟩

/-- Lines 82-85 of the source: strip ANSI codes as a fallback when the
content still contains `ESC [`. -/
def effectiveContent (raw : String) : List Char :=
  if containsSub raw.data ['\x1b', '['] then (strip_ansi_codes raw).data else raw.data

/-- Lines 89-90 of the source:
`has_failures = "FAILED" in content or "ERROR" in content`. -/
def hasFailuresIn (content : List Char) : Bool :=
  containsSub content ("FAILED".data) || containsSub content ("ERROR".data)

/-- Lines 277-311 of the source: the summary counts override the individual
tally exactly when at least one of them is positive. -/
def finalCounts (content : List Char) : Nat × Nat × Nat :=
  if (summaryData (splitLinesChars content)).1 > 0 ||
      (summaryData (splitLinesChars content)).2.1 > 0 ||
      (summaryData (splitLinesChars content)).2.2.1 > 0 then
    ((summaryData (splitLinesChars content)).1,
     (summaryData (splitLinesChars content)).2.1,
     (summaryData (splitLinesChars content)).2.2.1)
  else
    ((individualCounts content).passed, (individualCounts content).failed,
     (individualCounts content).errors)

/-- Lines 313-339 of the source: the failure details collected from the
`short test summary info` section. -/
def detailsOf (content : List Char) : List String :=
  ((splitLinesChars content).foldl detailStep ⟨false, false, []⟩).acc

/-- Lines 78-349 of the source: parsing of a successfully read log file. -/
def parsePytestContent (raw : String) : PyResult :=
  { status := if hasFailuresIn (effectiveContent raw) then FAIL_STATUS else PASS_STATUS
    passed := (finalCounts (effectiveContent raw)).1
    failed := (finalCounts (effectiveContent raw)).2.1
    errors := (finalCounts (effectiveContent raw)).2.2
    time := (summaryData (splitLinesChars (effectiveContent raw))).2.2.2
    log_exists := true
    failure_details :=
      if hasFailuresIn (effectiveContent raw) then detailsOf (effectiveContent raw) else [] }

/-- The file system visible to the script: `exists?` models `os.path.exists`,
`read` the outcome of `open(...).read()` on an existing path (`Except.error`
when reading raises), `isDir` models `os.path.isdir`, and `globSanity p` the
list returned by `glob.glob(p + "/sanity-test-results-*")`. -/
structure Filesystem where
  exists? : String → Bool
  read : String → Except String String
  isDir : String → Bool
  globSanity : String → List String

/-- The `NO LOG` sentinel returned when no candidate log file exists. -/
def noLogResult : PyResult :=
  ⟨NO_LOG_STATUS, 0, 0, 0, "N/A", false, []⟩

/-- The `ERROR` sentinel returned from the `except` branch. -/
def errorResult (e : String) : PyResult :=
  ⟨ERROR_STATUS, 0, 0, 0, "N/A", false, ["Failed to parse log: " ++ e]⟩

/-- The fallback log filename (line 51 of the source):
`log_file_path.replace("pytest-output.log", "pytest-output-raw.log")`. -/
def fallbackPath (path : String) : String :=
  pyReplace path "pytest-output.log" "pytest-output-raw.log"

/-- `parse_pytest_log`: try the given path, then the `-raw` fallback; missing
on both gives the `NO LOG` sentinel; a raising read gives the `ERROR`
sentinel; otherwise parse the content.  The function is total: the `try`
block of the source converts every exception into the `ERROR` sentinel, so
the caller always receives a result object. -/
def parse_pytest_log (fs : Filesystem) (path : String) : PyResult :=
  let cands := [path, fallbackPath path]
  match cands.find? (fun p => fs.exists? p) with
  | none => noLogResult
  | some p =>
    match fs.read p with
    | .ok content => parsePytestContent content
    | .error e => errorResult e

/-! ### `process_artifacts` and sorting -/

/-- A `TestResult` named tuple of the source. -/
structure TestResult where
  version : String
  status : String
  passed : Nat
  failed : Nat
  errors : Nat
  time : String
  log_exists : Bool
  failure_details : List String
deriving DecidableEq

/-- Python string `<=` (lexicographic by code point, a proper prefix is
smaller). -/
def charListLe : List Char → List Char → Bool
  | [], _ => true
  | _ :: _, [] => false
  | a :: as, b :: bs => if a = b then charListLe as bs else decide (a.toNat < b.toNat)

/-- Python string `<=` on `String`. -/
def pyStrLe (a b : String) : Bool :=
  charListLe a.data b.data

/-- Insert into a sorted list, before the first element that is not smaller:
together with `sortLeBy` this is the stable ascending sort that Python's
`list.sort` and `sorted` implement. -/
def insertLeBy (le : α → α → Bool) (x : α) : List α → List α
  | [] => [x]
  | y :: ys => if le x y then x :: y :: ys else y :: insertLeBy le x ys

/-- Stable ascending sort (the observable behaviour of Python's Timsort for a
total preorder). -/
def sortLeBy (le : α → α → Bool) : List α → List α
  | [] => []
  | x :: xs => insertLeBy le x (sortLeBy le xs)

/-- Python `sorted` on a list of strings. -/
def pySorted (xs : List String) : List String :=
  sortLeBy pyStrLe xs

/-- `os.path.basename`: the part after the last `/`. -/
def pyBasename (p : String) : String :=
  ⟨(pySplitChars ['/'] p.data).getLastD []⟩

/-- `find_artifact_directories`: the glob over the artifacts path. -/
def find_artifact_directories (fs : Filesystem) (artifactsPath : String) : List String :=
  fs.globSanity artifactsPath

/-- `process_artifacts`: parse each artifact directory (skipping non-dirs),
then sort the results by version name (`results.sort(key=lambda x: x.version)`,
a stable sort).  `os.path.join(dir, name)` is `dir ++ "/" ++ name` for the
relative names used here. -/
def process_artifacts (fs : Filesystem) (artifactsPath : String) : List TestResult :=
  let dirs := find_artifact_directories fs artifactsPath
  let results := dirs.filterMap fun d =>
    if fs.isDir d then
      let version := pyReplace (pyBasename d) "sanity-test-results-" ""
      let logData := parse_pytest_log fs (d ++ "/pytest-output.log")
      some ⟨version, logData.status, logData.passed, logData.failed, logData.errors,
            logData.time, logData.log_exists, logData.failure_details⟩
    else none
  sortLeBy (fun a b => pyStrLe a.version b.version) results

/-! ### `find_inconsistent_tests` -/

/-- `dict[version, status]` as an insertion-ordered association list (a Python
dict preserves insertion order and has unique keys). -/
abbrev VersionMap := List (String × String)

/-- `dict[test_name, dict[version, status]]`, insertion-ordered. -/
abbrev TestMap := List (String × VersionMap)

/-- The record appended for an inconsistent test. -/
structure InconsistentRec where
  test_name : String
  passed_versions : List String
  failed_versions : List String
  all_results : VersionMap
deriving DecidableEq

/-- `s in ["FAILED", "ERROR"]`. -/
def isFailedStatus (s : String) : Bool :=
  s = "FAILED" || s = "ERROR"

/-- Body of the `find_inconsistent_tests` loop for one test: skip tests with
fewer than two per-version results; flag when the set of distinct status
values has more than one element. -/
def inconsistentCheck (t : String) (vr : VersionMap) : Option InconsistentRec :=
  if vr.length < 2 then none
  else if ((vr.map Prod.snd).dedup).length > 1 then
    some ⟨t, (vr.filter fun p => p.2 = "PASSED").map Prod.fst,
          (vr.filter fun p => isFailedStatus p.2).map Prod.fst, vr⟩
  else none

/-- `find_inconsistent_tests` (the `all_versions` argument is unused in the
source as well). -/
def find_inconsistent_tests (test_results : TestMap) (_all_versions : List String) :
    List InconsistentRec :=
  test_results.filterMap fun p => inconsistentCheck p.1 p.2

/-! ### `analyze_regressions` -/

/-- A regression record (test name, per-category outcomes, severity). -/
structure RegressionRec where
  test_name : String
  stable_results : VersionMap
  next_results : VersionMap
  severity : String
deriving DecidableEq

/-- An improvement / new-failure record. -/
structure ChangeRec where
  test_name : String
  stable_results : VersionMap
  next_results : VersionMap
deriving DecidableEq

/-- Python `str.lower()` (ASCII). -/
def pyLower (s : String) : String :=
  ⟨s.data.map Char.toLower⟩

/-- `[v for v in all_versions if v in ["cloud", "previous"]]`. -/
def stableVersionNames (all_versions : List String) : List String :=
  all_versions.filter fun v => v = "cloud" || v = "previous"

/-- `[v for v in all_versions if "next" in v.lower()]`. -/
def nextVersionNames (all_versions : List String) : List String :=
  all_versions.filter fun v => containsSub (pyLower v).data ("next".data)

/-- `{v: version_results.get(v, "MISSING") for v in names if v in
version_results}` as an ordered association list (first occurrence fixes the
position, as in a dict comprehension). -/
def outcomesFor (names : List String) (vr : VersionMap) : VersionMap :=
  ((names.filter fun v => (vr.lookup v).isSome).dedup).map fun v =>
    (v, (vr.lookup v).getD "MISSING")

/-- The regression check of one loop iteration of `analyze_regressions`. -/
def regressionCheck (stableVs nextVs : List String) (t : String) (vr : VersionMap) :
    Option RegressionRec :=
  if (outcomesFor stableVs vr).isEmpty || (outcomesFor nextVs vr).isEmpty then none
  else if ((outcomesFor stableVs vr).any fun q => q.2 = "PASSED") &&
      ((outcomesFor nextVs vr).any fun q => isFailedStatus q.2) then
    some ⟨t, outcomesFor stableVs vr, outcomesFor nextVs vr,
      if (outcomesFor nextVs vr).all fun q => isFailedStatus q.2 then "HIGH" else "MEDIUM"⟩
  else none

/-- The improvement check of one loop iteration. -/
def improvementCheck (stableVs nextVs : List String) (t : String) (vr : VersionMap) :
    Option ChangeRec :=
  if (outcomesFor stableVs vr).isEmpty || (outcomesFor nextVs vr).isEmpty then none
  else if ((outcomesFor stableVs vr).any fun q => isFailedStatus q.2) &&
      ((outcomesFor nextVs vr).any fun q => q.2 = "PASSED") then
    some ⟨t, outcomesFor stableVs vr, outcomesFor nextVs vr⟩
  else none

/-- The new-failure check of one loop iteration (inside the loop both outcome
dicts are nonempty, so the `if ... else False` guards of the source reduce to
plain `all`). -/
def newFailureCheck (stableVs nextVs : List String) (t : String) (vr : VersionMap) :
    Option ChangeRec :=
  if (outcomesFor stableVs vr).isEmpty || (outcomesFor nextVs vr).isEmpty then none
  else if ((outcomesFor stableVs vr).all fun q => q.2 = "PASSED") &&
      ((outcomesFor nextVs vr).all fun q => isFailedStatus q.2) then
    some ⟨t, outcomesFor stableVs vr, outcomesFor nextVs vr⟩
  else none

/-- `analyze_regressions`: the loop appends to the three lists independently,
so each output list is a `filterMap` over the test map. -/
def analyze_regressions (test_results : TestMap) (all_versions : List String) :
    List RegressionRec × List ChangeRec × List ChangeRec :=
  let stableVs := stableVersionNames all_versions
  let nextVs := nextVersionNames all_versions
  (test_results.filterMap fun p => regressionCheck stableVs nextVs p.1 p.2,
   test_results.filterMap fun p => improvementCheck stableVs nextVs p.1 p.2,
   test_results.filterMap fun p => newFailureCheck stableVs nextVs p.1 p.2)

/-! ### The inconsistent-tests section of `generate_github_summary`
(lines 765-787 of the source; the emoji literals are copied byte for byte
from the source file). -/

/-- `", ".join(xs)`. -/
def joinComma : List String → String
  | [] => ""
  | [x] => x
  | x :: y :: ys => x ++ ", " ++ joinComma (y :: ys)

/-- `str(n)` for a Python int that is a count. -/
def natStr (n : Nat) : String :=
  toString n

/-- The lines written for one displayed inconsistent test. -/
def renderIssue (issue : InconsistentRec) : String :=
  "### ðŸ” `" ++ pySplitLast issue.test_name "::" ++ "`\n" ++
    (if !issue.failed_versions.isEmpty then
      "- **âŒ Failed on:** " ++ joinComma (pySorted issue.failed_versions) ++ "\n"
    else "") ++
    (if !issue.passed_versions.isEmpty then
      "- **âœ… Passed on:** " ++ joinComma (pySorted issue.passed_versions) ++ "\n"
    else "") ++
    "\n"

/-- The full inconsistent-tests section: header, the first five entries, and
the `... and N more` suffix when more than five exist. -/
def renderInconsistentSection (ts : List InconsistentRec) : String :=
  if !ts.isEmpty then
    "## ðŸ“Š All Version Inconsistencies\n" ++
      ("Found " ++ natStr ts.length ++ " tests with different results across versions:\n\n") ++
      String.join ((ts.take 5).map renderIssue) ++
      (if ts.length > 5 then
        "... and " ++ natStr (ts.length - 5) ++ " more inconsistent tests\n\n"
      else "")
  else
    "## âœ… Test Consistency\n" ++ "All tests show consistent results across versions.\n\n"

/-! ### `main` -/

/-- The process exit code of `main`: 1 when the artifacts path does not
exist; 0 when no artifact is found; otherwise 1 exactly when the failed or
error counts summed over all environments are positive (writing the summary
and the console reports do not change the exit code). -/
def mainExit (fs : Filesystem) (artifactsPath : String) : Nat :=
  if !fs.exists? artifactsPath then 1
  else
    let results := process_artifacts fs artifactsPath
    if results.isEmpty then 0
    else
      let totalFailed := (results.map TestResult.failed).sum
      let totalErrors := (results.map TestResult.errors).sum
      if totalFailed > 0 || totalErrors > 0 then 1 else 0

/-! ### Observers and concrete inputs used by the verification -/

/-- Number of positions at which `needle` occurs in a character list
(an observer for counting rendered entries; entry markers never overlap
themselves in the inputs measured below). -/
def countOcc (needle : List Char) : List Char → Nat
  | [] => 0
  | c :: cs => (if needle.isPrefixOf (c :: cs) then 1 else 0) + countOcc needle cs

/-- Whether a string contains the ESC character, i.e. whether it can contain
an ANSI escape sequence at all. -/
def hasEsc (s : String) : Bool :=
  s.data.any fun c => c = '\x1b'

/-- The synthetic log of the count-reconciliation acceptance example: three
`PASSED` lines, two `FAILED` lines, one `ERROR` line, and the trailing
summary line `== 2 failed, 3 passed, 1 error in 12.34s ===`. -/
def synthLog : String :=
  "suite/apps/demo/demo_sanity_test.py::TestApp::test_one[demo] PASSED [ 16%]\n" ++
  "suite/apps/demo/demo_sanity_test.py::TestApp::test_two[demo] PASSED [ 33%]\n" ++
  "suite/apps/demo/demo_sanity_test.py::TestApp::test_three[demo] PASSED [ 50%]\n" ++
  "suite/apps/demo/demo_sanity_test.py::TestApp::test_four[demo] FAILED [ 66%]\n" ++
  "suite/apps/demo/demo_sanity_test.py::TestApp::test_five[demo] FAILED [ 83%]\n" ++
  "suite/apps/demo/demo_sanity_test.py::TestApp::test_six[demo] ERROR [100%]\n" ++
  "== 2 failed, 3 passed, 1 error in 12.34s ==="

/-- The same log without the trailing summary line. -/
def synthLogNoSummary : String :=
  "suite/apps/demo/demo_sanity_test.py::TestApp::test_one[demo] PASSED [ 16%]\n" ++
  "suite/apps/demo/demo_sanity_test.py::TestApp::test_two[demo] PASSED [ 33%]\n" ++
  "suite/apps/demo/demo_sanity_test.py::TestApp::test_three[demo] PASSED [ 50%]\n" ++
  "suite/apps/demo/demo_sanity_test.py::TestApp::test_four[demo] FAILED [ 66%]\n" ++
  "suite/apps/demo/demo_sanity_test.py::TestApp::test_five[demo] FAILED [ 83%]\n" ++
  "suite/apps/demo/demo_sanity_test.py::TestApp::test_six[demo] ERROR [100%]"

/-- A log whose only line is a pytest summary line: the individual tally is
empty, the summary reports two failures, and neither `FAILED` nor `ERROR`
occurs as a substring. -/
def summaryOnlyLog : String :=
  "== 2 failed in 1.00s ==="

/-- Fifteen inconsistent-test records (for the truncation behaviour). -/
def fifteenIncons : List InconsistentRec :=
  (List.range 15).map fun i =>
    ⟨"t::m" ++ natStr i, ["A"], ["B"], [("A", "PASSED"), ("B", "FAILED")]⟩

/-- A two-test cross-environment map, in one insertion order... -/
def incMapA : TestMap :=
  [("b::t2", [("A", "PASSED"), ("B", "FAILED")]),
   ("a::t1", [("A", "PASSED"), ("B", "FAILED")])]

/-- ...and the identically-populated map in the other insertion order. -/
def incMapB : TestMap :=
  [("a::t1", [("A", "PASSED"), ("B", "FAILED")]),
   ("b::t2", [("A", "PASSED"), ("B", "FAILED")])]

/-- A file system on which nothing exists. -/
def fsAllMissing : Filesystem :=
  ⟨fun _ => false, fun _ => .error "unused", fun _ => false, fun _ => []⟩

/-- A file system on which every path exists but every read raises. -/
def fsReadRaises : Filesystem :=
  ⟨fun _ => true, fun _ => .error "boom", fun _ => false, fun _ => []⟩

/-- A file system with an existing artifacts root and no matching artifact
directories. -/
def fsNoArtifacts : Filesystem :=
  ⟨fun p => p = "arts", fun _ => .error "unused", fun _ => false, fun _ => []⟩

/-- A file system with one artifact directory whose log reports two
failures through its summary line. -/
def fsOneFailing : Filesystem :=
  ⟨fun p => p = "arts" || p = "arts/sanity-test-results-next/pytest-output.log",
   fun _ => .ok summaryOnlyLog,
   fun p => p = "arts/sanity-test-results-next",
   fun _ => ["arts/sanity-test-results-next"]⟩

/-- A file system with one artifact directory whose log is the synthetic
all-pass-free log above (three passes, two failures, one error). -/
def fsSynth : Filesystem :=
  ⟨fun p => p = "arts" || p = "arts/sanity-test-results-cloud/pytest-output.log",
   fun _ => .ok synthLog,
   fun p => p = "arts/sanity-test-results-cloud",
   fun _ => ["arts/sanity-test-results-cloud"]⟩

/-! ## Theorems -/

/-- A scanner whose matcher never fires on a list avoiding a character
leaves such a list unchanged (any fuel). -/
theorem scanSubAux_eq_self (m : List Char → Option Nat) (ch : Char)
    (hm : ∀ l : List Char, ch ∉ l → m l = none) :
    ∀ (fuel : Nat) (l : List Char), ch ∉ l → scanSubAux m fuel l = l := by
  intro fuel
  induction fuel with
  | zero => intro l _; rfl
  | succ n ih =>
    intro l hl
    cases l with
    | nil => rfl
    | cons c cs =>
      have hcs : ch ∉ cs := fun h => hl (List.mem_cons_of_mem _ h)
      simp only [scanSubAux, hm _ hl]
      rw [ih cs hcs]

/-- `csiLen` needs a `[` in second position. -/
theorem csiLen_none_of_no_bracket (l : List Char) (h : '[' ∉ l) : csiLen l = none := by
  rw [csiLen.eq_def]
  split
  · simp at h
  · rfl

/-- `csiLen` needs a leading ESC. -/
theorem csiLen_none_of_no_esc (l : List Char) (h : '\x1b' ∉ l) : csiLen l = none := by
  rw [csiLen.eq_def]
  split
  · simp at h
  · rfl

/-- `bracketMLen` needs a leading `[`. -/
theorem bracketMLen_none_of_no_bracket (l : List Char) (h : '[' ∉ l) : bracketMLen l = none := by
  rw [bracketMLen.eq_def]
  split
  · simp at h
  · rfl

/-- `bracketAlphaLen` needs a leading `[`. -/
theorem bracketAlphaLen_none_of_no_bracket (l : List Char) (h : '[' ∉ l) :
    bracketAlphaLen l = none := by
  rw [bracketAlphaLen.eq_def]
  split
  · simp at h
  · rfl

/-- `oscBelLen` needs a leading ESC. -/
theorem oscBelLen_none_of_no_esc (l : List Char) (h : '\x1b' ∉ l) : oscBelLen l = none := by
  rw [oscBelLen.eq_def]
  split
  · simp at h
  · rfl

/-- `oscStLen` needs a leading ESC. -/
theorem oscStLen_none_of_no_esc (l : List Char) (h : '\x1b' ∉ l) : oscStLen l = none := by
  rw [oscStLen.eq_def]
  split
  · simp at h
  · rfl

/-- `escOtherLen` needs a leading ESC. -/
theorem escOtherLen_none_of_no_esc (l : List Char) (h : '\x1b' ∉ l) : escOtherLen l = none := by
  rw [escOtherLen.eq_def]
  split
  · simp at h
  · rfl

/-- C3 (counterexample): ANSI stripping is not idempotent, and stripping
already-clean text is not always a no-op.  `strip_ansi_codes` of
`aggregate_results.py` maps `"[1[2K3K"` to `"[13K"` and only a second pass
to `""`, and it alters escape-free text such as `"list[i]"`; the
`strip_ansi.py` variant maps `ESC ESC ESC [0m [0m [31m` to `ESC [31m`,
which a second pass erases. -/
theorem ansi_strip_idempotent_counterexample :
    strip_ansi_codes (strip_ansi_codes "[1[2K3K") ≠ strip_ansi_codes "[1[2K3K" ∧
    hasEsc "list[i]" = false ∧ strip_ansi_codes "list[i]" ≠ "list[i]" ∧
    strip_ansi_codes_file (strip_ansi_codes_file "\x1b\x1b\x1b[0m[0m[31m") ≠
      strip_ansi_codes_file "\x1b\x1b\x1b[0m[0m[31m" := by
  decide

/-- C3 (amended): a string containing no `[` character is a fixed point of
`strip_ansi_codes` of `aggregate_results.py`, and a string containing no ESC
character — hence no ANSI escape sequence at all — is returned unchanged by
`strip_ansi_codes` of `strip_ansi.py`. -/
theorem ansi_strip_clean_fixed_point (s t : String)
    (hs : '[' ∉ s.data) (ht : '\x1b' ∉ t.data) :
    strip_ansi_codes s = s ∧ strip_ansi_codes_file t = t := by
  constructor
  · show String.mk _ = s
    unfold scanSub
    rw [scanSubAux_eq_self csiLen '[' csiLen_none_of_no_bracket _ _ hs]
    rw [scanSubAux_eq_self csiLen '[' csiLen_none_of_no_bracket _ _ hs]
    rw [scanSubAux_eq_self bracketMLen '[' bracketMLen_none_of_no_bracket _ _ hs]
    rw [scanSubAux_eq_self bracketAlphaLen '[' bracketAlphaLen_none_of_no_bracket _ _ hs]
  · show String.mk _ = t
    unfold scanSub
    rw [scanSubAux_eq_self csiLen '\x1b' csiLen_none_of_no_esc _ _ ht]
    rw [scanSubAux_eq_self csiLen '\x1b' csiLen_none_of_no_esc _ _ ht]
    rw [scanSubAux_eq_self oscBelLen '\x1b' oscBelLen_none_of_no_esc _ _ ht]
    rw [scanSubAux_eq_self oscStLen '\x1b' oscStLen_none_of_no_esc _ _ ht]
    rw [scanSubAux_eq_self escOtherLen '\x1b' escOtherLen_none_of_no_esc _ _ ht]

/-- C3 (witness): the amended statement at two concrete clean strings. -/
theorem ansi_strip_clean_fixed_point_witness :
    ('[' ∉ ("3 passed in 2s" : String).data) ∧
    ('\x1b' ∉ ("[31m plain text" : String).data) ∧
    strip_ansi_codes "3 passed in 2s" = "3 passed in 2s" ∧
    strip_ansi_codes_file "[31m plain text" = "[31m plain text" :=
  ⟨by decide, by decide,
   (ansi_strip_clean_fixed_point "3 passed in 2s" "[31m plain text"
      (by decide) (by decide)).1,
   (ansi_strip_clean_fixed_point "3 passed in 2s" "[31m plain text"
      (by decide) (by decide)).2⟩

/-- C1: when a trailing summary line is present and at least one of its
extracted counts is positive, `parse_pytest_log` returns the summary counts
(and its elapsed time), overriding the per-test tally: the summary line is
authoritative. -/
theorem summary_line_is_authoritative (content : String) (sp sf se : Nat) (t : String)
    (hsum : summaryData (splitLinesChars (effectiveContent content)) = (sp, sf, se, t))
    (hpos : 0 < sp + sf + se) :
    (parsePytestContent content).passed = sp ∧ (parsePytestContent content).failed = sf ∧
    (parsePytestContent content).errors = se ∧ (parsePytestContent content).time = t := by
  have hc : finalCounts (effectiveContent content) = (sp, sf, se) := by
    unfold finalCounts
    rw [hsum]
    have hb : (sp > 0 || sf > 0 || se > 0 : Bool) = true := by
      simp only [Bool.or_eq_true, decide_eq_true_eq]
      omega
    simp [hb]
  refine ⟨?_, ?_, ?_, ?_⟩
  · show (finalCounts (effectiveContent content)).1 = sp
    rw [hc]
  · show (finalCounts (effectiveContent content)).2.1 = sf
    rw [hc]
  · show (finalCounts (effectiveContent content)).2.2 = se
    rw [hc]
  · show (summaryData (splitLinesChars (effectiveContent content))).2.2.2 = t
    rw [hsum]

/-- C1 (witness): the acceptance example — three `PASSED`, two `FAILED` and
one `ERROR` line plus the summary line
`== 2 failed, 3 passed, 1 error in 12.34s ===` gives passed=3, failed=2,
errors=1, time `12.34s` and the FAIL status. -/
theorem summary_line_is_authoritative_witness :
    summaryData (splitLinesChars (effectiveContent synthLog)) = (3, 2, 1, "12.34s") ∧
    individualCounts (effectiveContent synthLog) = ⟨3, 2, 1, none⟩ ∧
    (parsePytestContent synthLog).passed = 3 ∧ (parsePytestContent synthLog).failed = 2 ∧
    (parsePytestContent synthLog).errors = 1 ∧
    (parsePytestContent synthLog).time = "12.34s" ∧
    (parsePytestContent synthLog).status = FAIL_STATUS := by
  have h := summary_line_is_authoritative synthLog 3 2 1 "12.34s" (by decide) (by decide)
  exact ⟨by decide, by decide, h.1, h.2.1, h.2.2.1, h.2.2.2, by decide⟩

/-- C2 (counterexample): a readable log consisting of the single line
`== 2 failed in 1.00s ===` yields failed+errors = 2 > 0 but a PASS status,
because the status comes from the presence of the substrings `FAILED`/`ERROR`
in the content, not from the returned counts. -/
theorem status_from_counts_counterexample :
    0 < (parsePytestContent summaryOnlyLog).failed + (parsePytestContent summaryOnlyLog).errors ∧
    (parsePytestContent summaryOnlyLog).status = PASS_STATUS ∧
    (parsePytestContent summaryOnlyLog).status ≠ FAIL_STATUS := by
  decide

/-- C2 (amended): the status of a parsed log is FAIL exactly when the
(ANSI-stripped) content contains the substring `FAILED` or the substring
`ERROR`, and PASS otherwise — not a function of the returned counts. -/
theorem status_iff_failure_substring (content : String) :
    ((parsePytestContent content).status = FAIL_STATUS ↔
      hasFailuresIn (effectiveContent content) = true) ∧
    (hasFailuresIn (effectiveContent content) = false →
      (parsePytestContent content).status = PASS_STATUS) := by
  have h : (parsePytestContent content).status =
      if hasFailuresIn (effectiveContent content) then FAIL_STATUS else PASS_STATUS := rfl
  rw [h]
  have hne : PASS_STATUS ≠ FAIL_STATUS := by decide
  cases hf : hasFailuresIn (effectiveContent content) with
  | false => simp [hne]
  | true => simp

/-- C10: when the summary line is absent or all three of its extracted
counts are zero, the parser keeps the counts of the individual per-test
tally unchanged. -/
theorem summary_zero_keeps_individual (content : String) (t : String)
    (hsum : summaryData (splitLinesChars (effectiveContent content)) = (0, 0, 0, t)) :
    (parsePytestContent content).passed = (individualCounts (effectiveContent content)).passed ∧
    (parsePytestContent content).failed = (individualCounts (effectiveContent content)).failed ∧
    (parsePytestContent content).errors = (individualCounts (effectiveContent content)).errors := by
  have hc : finalCounts (effectiveContent content) =
      ((individualCounts (effectiveContent content)).passed,
       (individualCounts (effectiveContent content)).failed,
       (individualCounts (effectiveContent content)).errors) := by
    unfold finalCounts
    rw [hsum]
    rfl
  exact ⟨congrArg (·.1) hc, congrArg (·.2.1) hc, congrArg (·.2.2) hc⟩

/-- C10 (witness): without the summary line the synthetic log keeps its
individual tally 3/2/1, and an empty log yields all-zero counts without
error. -/
theorem summary_zero_keeps_individual_witness :
    summaryData (splitLinesChars (effectiveContent synthLogNoSummary)) = (0, 0, 0, "N/A") ∧
    individualCounts (effectiveContent synthLogNoSummary) = ⟨3, 2, 1, none⟩ ∧
    (parsePytestContent synthLogNoSummary).passed = 3 ∧
    (parsePytestContent synthLogNoSummary).failed = 2 ∧
    (parsePytestContent synthLogNoSummary).errors = 1 ∧
    (parsePytestContent "").passed = 0 ∧ (parsePytestContent "").failed = 0 ∧
    (parsePytestContent "").errors = 0 := by
  have h := summary_zero_keeps_individual synthLogNoSummary "N/A" (by decide)
  have h0 := summary_zero_keeps_individual "" "N/A" (by decide)
  refine ⟨by decide, by decide, ?_, ?_, ?_, ?_, ?_, ?_⟩
  · rw [h.1]; decide
  · rw [h.2.1]; decide
  · rw [h.2.2]; decide
  · rw [h0.1]; decide
  · rw [h0.2.1]; decide
  · rw [h0.2.2]; decide

/-- C6: `parse_pytest_log` always returns a result object: when neither
accepted filename exists it returns the `NO LOG` sentinel, and when the
chosen file's read raises it returns the `ERROR` sentinel; both sentinels
carry all-zero counts. -/
theorem parser_sentinel_results (fs : Filesystem) (path : String) :
    (fs.exists? path = false → fs.exists? (fallbackPath path) = false →
      parse_pytest_log fs path = noLogResult) ∧
    (∀ e, fs.exists? path = true → fs.read path = .error e →
      parse_pytest_log fs path = errorResult e) ∧
    (∀ e, fs.exists? path = false → fs.exists? (fallbackPath path) = true →
      fs.read (fallbackPath path) = .error e → parse_pytest_log fs path = errorResult e) ∧
    noLogResult.passed = 0 ∧ noLogResult.failed = 0 ∧ noLogResult.errors = 0 ∧
    noLogResult.status = NO_LOG_STATUS ∧ noLogResult.log_exists = false ∧
    (∀ e, (errorResult e).passed = 0 ∧ (errorResult e).failed = 0 ∧
      (errorResult e).errors = 0 ∧ (errorResult e).status = ERROR_STATUS) := by
  refine ⟨?_, ?_, ?_, rfl, rfl, rfl, rfl, rfl, fun e => ⟨rfl, rfl, rfl, rfl⟩⟩
  · intro h1 h2
    unfold parse_pytest_log
    simp [h1, h2]
  · intro e h1 hr
    unfold parse_pytest_log
    simp [h1, hr]
  · intro e h1 h2 hr
    unfold parse_pytest_log
    simp [h1, h2, hr]

/-- C6 (witness): the sentinel behaviour at a fully missing path and at a
path whose read raises. -/
theorem parser_sentinel_results_witness :
    fsAllMissing.exists? "x/pytest-output.log" = false ∧
    fsAllMissing.exists? (fallbackPath "x/pytest-output.log") = false ∧
    parse_pytest_log fsAllMissing "x/pytest-output.log" = noLogResult ∧
    fsReadRaises.exists? "x/pytest-output.log" = true ∧
    fsReadRaises.read "x/pytest-output.log" = .error "boom" ∧
    parse_pytest_log fsReadRaises "x/pytest-output.log" = errorResult "boom" ∧
    noLogResult.passed = 0 ∧ (errorResult "boom").passed = 0 := by
  have h1 := parser_sentinel_results fsAllMissing "x/pytest-output.log"
  have h2 := parser_sentinel_results fsReadRaises "x/pytest-output.log"
  exact ⟨rfl, rfl, h1.1 rfl rfl, rfl, rfl, h2.2.1 "boom" rfl rfl, rfl, rfl⟩

/-- C7: the exit code is 1 when the artifacts root is missing; when the root
exists the exit code is 0 exactly when the failed counts and the error
counts summed over all parsed environments are both zero; in particular an
existing root with no matching artifact directories exits 0. -/
theorem exit_code_contract (fs : Filesystem) (p : String) :
    (fs.exists? p = false → mainExit fs p = 1) ∧
    (fs.exists? p = true →
      (mainExit fs p = 0 ↔
        ((process_artifacts fs p).map TestResult.failed).sum = 0 ∧
        ((process_artifacts fs p).map TestResult.errors).sum = 0)) ∧
    (fs.exists? p = true → fs.globSanity p = [] → mainExit fs p = 0) := by
  refine ⟨?_, ?_, ?_⟩
  · intro h
    unfold mainExit
    simp [h]
  · intro h
    have hmain : mainExit fs p =
        (if (process_artifacts fs p).isEmpty then 0
         else if ((process_artifacts fs p).map TestResult.failed).sum > 0 ||
            ((process_artifacts fs p).map TestResult.errors).sum > 0 then 1 else 0) := by
      unfold mainExit
      rw [h]
      rfl
    rw [hmain]
    by_cases hemp : (process_artifacts fs p).isEmpty = true
    · rw [if_pos hemp]
      have hnil : process_artifacts fs p = [] := by
        cases hpa : process_artifacts fs p with
        | nil => rfl
        | cons a l => rw [hpa] at hemp; simp at hemp
      rw [hnil]
      simp
    · rw [if_neg hemp]
      by_cases hs : (((process_artifacts fs p).map TestResult.failed).sum > 0 ||
          ((process_artifacts fs p).map TestResult.errors).sum > 0 : Bool) = true
      · rw [if_pos hs]
        simp only [Bool.or_eq_true, decide_eq_true_eq] at hs
        constructor
        · intro h1
          exact absurd h1 one_ne_zero
        · rintro ⟨hf0, he0⟩
          omega
      · rw [if_neg hs]
        simp only [Bool.or_eq_true, decide_eq_true_eq, not_or, Nat.not_lt,
          Nat.le_zero] at hs
        exact ⟨fun _ => ⟨hs.1, hs.2⟩, fun _ => rfl⟩
  · intro h hg
    have hnil : process_artifacts fs p = [] := by
      unfold process_artifacts find_artifact_directories
      rw [hg]
      rfl
    unfold mainExit
    rw [h, hnil]
    rfl

/-- C7 (witness): the contract at a missing root, at an empty root, and at a
root with one environment reporting two failures. -/
theorem exit_code_contract_witness :
    mainExit fsAllMissing "arts" = 1 ∧
    mainExit fsNoArtifacts "arts" = 0 ∧
    mainExit fsOneFailing "arts" = 1 ∧
    ((process_artifacts fsOneFailing "arts").map TestResult.failed).sum = 2 ∧
    mainExit fsSynth "arts" = 1 := by
  have h1 := exit_code_contract fsAllMissing "arts"
  have h2 := exit_code_contract fsNoArtifacts "arts"
  exact ⟨h1.1 rfl, h2.2.2 rfl rfl, by decide, by decide, by decide⟩

/-- C8 (counterexample): with fifteen inconsistent tests the rendered
section contains exactly five detailed entries (not ten) and the suffix
`... and 10 more inconsistent tests` (not a count of five): the display cap
of the source is 5, not 10. -/
theorem truncation_counterexample :
    fifteenIncons.length = 15 ∧
    countOcc ("### ".data) (renderInconsistentSection fifteenIncons).data = 5 ∧
    countOcc ("### ".data) (renderInconsistentSection fifteenIncons).data ≠ 10 ∧
    pyContains (renderInconsistentSection fifteenIncons)
      "... and 10 more inconsistent tests" = true ∧
    pyContains (renderInconsistentSection fifteenIncons)
      "... and 5 more inconsistent tests" = false := by
  decide

/-- C8 (amended): inconsistent-test lists longer than the display cap of
five are truncated to the first five entries followed by the suffix
`... and N more inconsistent tests` where `N` is the number of omitted
entries. -/
theorem truncation_cap_five (ts : List InconsistentRec) (h : 5 < ts.length) :
    renderInconsistentSection ts =
      "## ðŸ“Š All Version Inconsistencies\n" ++
        ("Found " ++ natStr ts.length ++ " tests with different results across versions:\n\n") ++
        String.join ((ts.take 5).map renderIssue) ++
        ("... and " ++ natStr (ts.length - 5) ++ " more inconsistent tests\n\n") ∧
    (ts.take 5).length = 5 := by
  have hne : ts.isEmpty = false := by
    cases ts with
    | nil => simp at h
    | cons a l => rfl
  constructor
  · unfold renderInconsistentSection
    rw [hne]
    rw [if_pos (show (!false) = true from rfl), if_pos h]
  · rw [List.length_take]
    omega

/-- C8 (witness): the amended truncation statement at the fifteen-entry
input. -/
theorem truncation_cap_five_witness :
    5 < fifteenIncons.length ∧
    renderInconsistentSection fifteenIncons =
      "## ðŸ“Š All Version Inconsistencies\n" ++
        ("Found " ++ natStr fifteenIncons.length ++
          " tests with different results across versions:\n\n") ++
        String.join ((fifteenIncons.take 5).map renderIssue) ++
        ("... and " ++ natStr (fifteenIncons.length - 5) ++ " more inconsistent tests\n\n") ∧
    (fifteenIncons.take 5).length = 5 :=
  ⟨by decide, (truncation_cap_five fifteenIncons (by decide)).1,
   (truncation_cap_five fifteenIncons (by decide)).2⟩

/-- C9 (counterexample): the renderer is not invariant under reordering an
identically-populated mapping, and per-test listings are not sorted by test
identifier: the two insertion orders of the same two-test mapping render
differently, and the listing follows insertion order `b::t2, a::t1`. -/
theorem renderer_order_counterexample :
    incMapA.Perm incMapB ∧
    (find_inconsistent_tests incMapA ["A", "B"]).map InconsistentRec.test_name =
      ["b::t2", "a::t1"] ∧
    pySorted ["b::t2", "a::t1"] ≠ ["b::t2", "a::t1"] ∧
    renderInconsistentSection (find_inconsistent_tests incMapA ["A", "B"]) ≠
      renderInconsistentSection (find_inconsistent_tests incMapB ["A", "B"]) := by
  refine ⟨by decide, by decide, by decide, by decide⟩

/-- `Char.toNat` determines the character. -/
theorem char_toNat_inj {a b : Char} (h : a.toNat = b.toNat) : a = b := by
  rw [← Char.ofNat_toNat a, ← Char.ofNat_toNat b, h]

/-- Totality of the Python string order. -/
theorem charListLe_total : ∀ a b : List Char, charListLe a b = true ∨ charListLe b a = true := by
  intro a
  induction a with
  | nil => intro b; left; rfl
  | cons c cs ih =>
    intro b
    cases b with
    | nil => right; rfl
    | cons d ds =>
      by_cases hcd : c = d
      · subst hcd
        rw [charListLe, if_pos rfl, charListLe, if_pos rfl]
        exact ih ds
      · have hdc : ¬ d = c := fun h => hcd h.symm
        rw [charListLe, if_neg hcd, charListLe, if_neg hdc]
        have hne : c.toNat ≠ d.toNat := fun h => hcd (char_toNat_inj h)
        simp only [decide_eq_true_eq]
        omega

/-- Transitivity of the Python string order. -/
theorem charListLe_trans :
    ∀ a b c : List Char, charListLe a b = true → charListLe b c = true →
      charListLe a c = true := by
  intro a
  induction a with
  | nil => intro b c _ _; rfl
  | cons x xs ih =>
    intro b c hab hbc
    cases b with
    | nil => rw [charListLe] at hab; cases hab
    | cons y ys =>
      cases c with
      | nil => rw [charListLe] at hbc; cases hbc
      | cons z zs =>
        rw [charListLe] at hab hbc ⊢
        by_cases hxy : x = y
        · subst hxy
          rw [if_pos rfl] at hab
          by_cases hyz : x = z
          · subst hyz
            rw [if_pos rfl] at hbc ⊢
            exact ih ys zs hab hbc
          · rw [if_neg hyz] at hbc ⊢
            exact hbc
        · rw [if_neg hxy] at hab
          by_cases hyz : y = z
          · subst hyz
            rw [if_neg hxy]
            exact hab
          · rw [if_neg hyz] at hbc
            simp only [decide_eq_true_eq] at hab hbc
            have hxz : ¬ x = z := by
              intro h
              subst h
              omega
            rw [if_neg hxz]
            simp only [decide_eq_true_eq]
            omega

/-- Members of an insertion are the inserted element or old members. -/
theorem mem_insertLeBy {le : α → α → Bool} {x z : α} {l : List α}
    (h : z ∈ insertLeBy le x l) : z = x ∨ z ∈ l := by
  induction l with
  | nil =>
    rw [insertLeBy] at h
    rcases List.mem_singleton.mp h with rfl
    exact Or.inl rfl
  | cons y ys ih =>
    rw [insertLeBy] at h
    by_cases hxy : le x y = true
    · rw [if_pos hxy] at h
      rcases List.mem_cons.mp h with rfl | h'
      · exact Or.inl rfl
      · exact Or.inr h'
    · rw [if_neg hxy] at h
      rcases List.mem_cons.mp h with rfl | h'
      · exact Or.inr (List.mem_cons_self _ _)
      · rcases ih h' with rfl | h''
        · exact Or.inl rfl
        · exact Or.inr (List.mem_cons_of_mem _ h'')

/-- Insertion into a sorted list keeps it sorted (for a total transitive
comparison). -/
theorem pairwise_insertLeBy (le : α → α → Bool)
    (htot : ∀ a b, le a b = true ∨ le b a = true)
    (htrans : ∀ a b c, le a b = true → le b c = true → le a c = true)
    (x : α) (l : List α) (hl : l.Pairwise fun a b => le a b = true) :
    (insertLeBy le x l).Pairwise fun a b => le a b = true := by
  induction l with
  | nil => simp [insertLeBy]
  | cons y ys ih =>
    rw [insertLeBy]
    rcases List.pairwise_cons.mp hl with ⟨hy, hys⟩
    by_cases hxy : le x y = true
    · rw [if_pos hxy]
      refine List.Pairwise.cons ?_ hl
      intro z hz
      rcases List.mem_cons.mp hz with rfl | hz'
      · exact hxy
      · exact htrans _ _ _ hxy (hy z hz')
    · rw [if_neg hxy]
      have hyx : le y x = true := (htot x y).resolve_left hxy
      refine List.Pairwise.cons ?_ (ih hys)
      intro z hz
      rcases mem_insertLeBy hz with rfl | hz'
      · exact hyx
      · exact hy z hz'

/-- The stable insertion sort sorts (for a total transitive comparison). -/
theorem pairwise_sortLeBy (le : α → α → Bool)
    (htot : ∀ a b, le a b = true ∨ le b a = true)
    (htrans : ∀ a b c, le a b = true → le b c = true → le a c = true) :
    ∀ l : List α, (sortLeBy le l).Pairwise fun a b => le a b = true := by
  intro l
  induction l with
  | nil => simp [sortLeBy]
  | cons x xs ih =>
    rw [sortLeBy]
    exact pairwise_insertLeBy le htot htrans x _ ih

/-- C9 (amended): the renderer is a pure function of its insertion-ordered
input (per-test listings follow mapping order, see the counterexample), and
the lists that the source does sort really are sorted: `process_artifacts`
returns the per-environment results ordered by version name, and the
per-entry version lists rendered by the inconsistent-tests section are
ordered as well. -/
theorem renderer_sorted_outputs (fs : Filesystem) (p : String) (xs : List String) :
    (process_artifacts fs p).Pairwise
      (fun a b => pyStrLe a.version b.version = true) ∧
    (pySorted xs).Pairwise (fun a b => pyStrLe a b = true) := by
  constructor
  · unfold process_artifacts
    exact pairwise_sortLeBy _
      (fun (a b : TestResult) => charListLe_total a.version.data b.version.data)
      (fun (a b c : TestResult) =>
        charListLe_trans a.version.data b.version.data c.version.data) _
  · unfold pySorted
    exact pairwise_sortLeBy _
      (fun (a b : String) => charListLe_total a.data b.data)
      (fun (a b c : String) => charListLe_trans a.data b.data c.data) _

/-- In an association list with nodup keys, a key determines its value. -/
theorem assoc_nodup_values {l : TestMap} (hnd : (l.map Prod.fst).Nodup)
    {k : String} {a b : VersionMap} (ha : (k, a) ∈ l) (hb : (k, b) ∈ l) : a = b := by
  induction l with
  | nil => cases ha
  | cons p tl ih =>
    rw [List.map_cons] at hnd
    obtain ⟨hp, ht⟩ := List.nodup_cons.mp hnd
    rcases List.mem_cons.mp ha with ha' | ha' <;> rcases List.mem_cons.mp hb with hb' | hb'
    · rw [← ha'] at hb'
      injection hb' with _ h2
      exact h2.symm
    · subst ha'
      exact absurd (List.mem_map.mpr ⟨(k, b), hb', rfl⟩) hp
    · subst hb'
      exact absurd (List.mem_map.mpr ⟨(k, a), ha', rfl⟩) hp
    · exact ih ht ha' hb'

/-- For a per-test check that stamps the test name into its result, a result
named `t` is in the `filterMap` over a nodup-keyed test map exactly when the
check fires on `t`'s entry. -/
theorem filterMap_key_char {β : Type} (f : String → VersionMap → Option β)
    (nameOf : β → String) (hf : ∀ t vr r, f t vr = some r → nameOf r = t)
    (tr : TestMap) (hnd : (tr.map Prod.fst).Nodup) (t : String) (vr : VersionMap)
    (hmem : (t, vr) ∈ tr) (r : β) :
    (r ∈ tr.filterMap (fun p => f p.1 p.2) ∧ nameOf r = t) ↔ f t vr = some r := by
  constructor
  · rintro ⟨hr, hname⟩
    rcases List.mem_filterMap.mp hr with ⟨⟨t', vr'⟩, hmem', hf'⟩
    have ht' : t' = t := by rw [← hname, hf _ _ _ hf']
    subst ht'
    have hvr : vr' = vr := assoc_nodup_values hnd hmem' hmem
    subst hvr
    exact hf'
  · intro hft
    exact ⟨List.mem_filterMap.mpr ⟨(t, vr), hmem, hft⟩, hf _ _ _ hft⟩

/-- Membership in an outcome dict is membership in the version list plus a
successful status lookup. -/
theorem mem_outcomesFor {names : List String} {vr : VersionMap} {v s : String} :
    (v, s) ∈ outcomesFor names vr ↔ v ∈ names ∧ vr.lookup v = some s := by
  unfold outcomesFor
  rw [List.mem_map]
  constructor
  · rintro ⟨v', hv', heq⟩
    obtain ⟨hv1, hv2⟩ := List.mem_filter.mp (List.mem_dedup.mp hv')
    have hvv : v' = v := congrArg Prod.fst heq
    subst hvv
    have hs : (vr.lookup v').getD "MISSING" = s := congrArg Prod.snd heq
    cases hlook : vr.lookup v' with
    | none => rw [hlook] at hv2; cases hv2
    | some s0 =>
      rw [hlook] at hs
      have hs' : s0 = s := hs
      exact ⟨hv1, by rw [hs']⟩
  · rintro ⟨hv, hlook⟩
    refine ⟨v, List.mem_dedup.mpr (List.mem_filter.mpr ⟨hv, by rw [hlook]; rfl⟩), ?_⟩
    rw [hlook]
    rfl

/-- An outcome dict is nonempty exactly when some listed version has a
result. -/
theorem outcomesFor_ne_nil {names : List String} {vr : VersionMap} :
    outcomesFor names vr ≠ [] ↔ ∃ v ∈ names, (vr.lookup v).isSome = true := by
  constructor
  · intro h
    cases ho : outcomesFor names vr with
    | nil => exact absurd ho h
    | cons q tl =>
      have hq : (q.1, q.2) ∈ outcomesFor names vr := by
        rw [ho]
        exact List.mem_cons_self _ _
      obtain ⟨h1, h2⟩ := mem_outcomesFor.mp hq
      exact ⟨q.1, h1, by rw [h2]; rfl⟩
  · rintro ⟨v, hv, hsome⟩ h
    cases hlook : vr.lookup v with
    | none => rw [hlook] at hsome; cases hsome
    | some s =>
      have : (v, s) ∈ outcomesFor names vr := mem_outcomesFor.mpr ⟨hv, hlook⟩
      rw [h] at this
      cases this

/-- `any` over an outcome dict is an existential over lookups. -/
theorem any_outcomesFor {names : List String} {vr : VersionMap}
    {pb : String × String → Bool} :
    ((outcomesFor names vr).any pb) = true ↔
      ∃ v s, v ∈ names ∧ vr.lookup v = some s ∧ pb (v, s) = true := by
  rw [List.any_eq_true]
  constructor
  · rintro ⟨⟨v, s⟩, hmem, hp⟩
    obtain ⟨h1, h2⟩ := mem_outcomesFor.mp hmem
    exact ⟨v, s, h1, h2, hp⟩
  · rintro ⟨v, s, h1, h2, hp⟩
    exact ⟨(v, s), mem_outcomesFor.mpr ⟨h1, h2⟩, hp⟩

/-- `all` over an outcome dict is a universal over lookups. -/
theorem all_outcomesFor {names : List String} {vr : VersionMap}
    {pb : String × String → Bool} :
    ((outcomesFor names vr).all pb) = true ↔
      ∀ v ∈ names, ∀ s, vr.lookup v = some s → pb (v, s) = true := by
  rw [List.all_eq_true]
  constructor
  · intro h v hv s hlook
    exact h (v, s) (mem_outcomesFor.mpr ⟨hv, hlook⟩)
  · rintro h ⟨v, s⟩ hmem
    obtain ⟨h1, h2⟩ := mem_outcomesFor.mp hmem
    exact h v h1 s h2

/-- An inconsistent record carries the test name of its entry. -/
theorem inconsistentCheck_name (t : String) (vr : VersionMap) (r : InconsistentRec)
    (h : inconsistentCheck t vr = some r) : r.test_name = t := by
  unfold inconsistentCheck at h
  split_ifs at h
  all_goals try cases h
  rfl

/-- C5: a test with an entry in the (nodup-keyed) cross-environment mapping
is flagged inconsistent exactly when the set of distinct status values
across the environments it appears in has more than one element; its record
lists the `PASSED` environments as `passed_versions` and the
`FAILED`/`ERROR` environments as `failed_versions`, in mapping order. -/
theorem inconsistency_classification (tr : TestMap) (avs : List String) (t : String)
    (vr : VersionMap) (hnd : (tr.map Prod.fst).Nodup) (hmem : (t, vr) ∈ tr) :
    ((∃ r ∈ find_inconsistent_tests tr avs, r.test_name = t) ↔
      1 < ((vr.map Prod.snd).dedup).length) ∧
    (∀ r ∈ find_inconsistent_tests tr avs, r.test_name = t →
      r.passed_versions = (vr.filter fun p => p.2 = "PASSED").map Prod.fst ∧
      r.failed_versions = (vr.filter fun p => isFailedStatus p.2).map Prod.fst ∧
      r.all_results = vr) := by
  have hchar : ∀ r : InconsistentRec,
      (r ∈ find_inconsistent_tests tr avs ∧ r.test_name = t) ↔
        inconsistentCheck t vr = some r :=
    filterMap_key_char inconsistentCheck InconsistentRec.test_name
      inconsistentCheck_name tr hnd t vr hmem
  constructor
  · constructor
    · rintro ⟨r, hr, hname⟩
      have h := (hchar r).mp ⟨hr, hname⟩
      unfold inconsistentCheck at h
      split_ifs at h with h1 h2
      all_goals try cases h
      exact h2
    · intro hcard
      have hlen : ¬ vr.length < 2 := by
        have h1 : ((vr.map Prod.snd).dedup).length ≤ (vr.map Prod.snd).length :=
          (List.dedup_sublist _).length_le
        rw [List.length_map] at h1
        omega
      have hsome : inconsistentCheck t vr =
          some ⟨t, (vr.filter fun p => p.2 = "PASSED").map Prod.fst,
                (vr.filter fun p => isFailedStatus p.2).map Prod.fst, vr⟩ := by
        unfold inconsistentCheck
        rw [if_neg hlen, if_pos hcard]
      exact ⟨_, ((hchar _).mpr hsome).1, ((hchar _).mpr hsome).2⟩
  · intro r hr hname
    have h := (hchar r).mp ⟨hr, hname⟩
    unfold inconsistentCheck at h
    split_ifs at h
    all_goals try cases h
    exact ⟨rfl, rfl, rfl⟩

/-- C5 (witness): environment `A` reports `X` as `PASSED` and environment
`B` reports it as `FAILED`: `X` is flagged with `passed_versions = [A]` and
`failed_versions = [B]`. -/
theorem inconsistency_classification_witness :
    (∃ r ∈ find_inconsistent_tests [("X", [("A", "PASSED"), ("B", "FAILED")])] ["A", "B"],
        r.test_name = "X") ∧
    find_inconsistent_tests [("X", [("A", "PASSED"), ("B", "FAILED")])] ["A", "B"] =
      [⟨"X", ["A"], ["B"], [("A", "PASSED"), ("B", "FAILED")]⟩] := by
  have h := inconsistency_classification [("X", [("A", "PASSED"), ("B", "FAILED")])]
      ["A", "B"] "X" [("A", "PASSED"), ("B", "FAILED")] (by decide) (by decide)
  exact ⟨h.1.mpr (by decide), by decide⟩

/-- A regression record carries the test name of its entry. -/
theorem regressionCheck_name (sv nv : List String) (t : String) (vr : VersionMap)
    (r : RegressionRec) (h : regressionCheck sv nv t vr = some r) : r.test_name = t := by
  unfold regressionCheck at h
  split_ifs at h <;> try cases h
  all_goals rfl

/-- C4: a test with results on both a stable and a next environment is
classified as a regression exactly when it is `PASSED` on at least one
stable environment and `FAILED` or `ERROR` on at least one next environment;
its severity is `HIGH` when every next-environment outcome is `FAILED` or
`ERROR` and `MEDIUM` otherwise. -/
theorem regression_classification (tr : TestMap) (avs : List String) (t : String)
    (vr : VersionMap) (hnd : (tr.map Prod.fst).Nodup) (hmem : (t, vr) ∈ tr)
    (hso : ∃ v ∈ stableVersionNames avs, (vr.lookup v).isSome = true)
    (hno : ∃ v ∈ nextVersionNames avs, (vr.lookup v).isSome = true) :
    ((∃ r ∈ (analyze_regressions tr avs).1, r.test_name = t) ↔
      ((∃ v ∈ stableVersionNames avs, vr.lookup v = some "PASSED") ∧
        (∃ v s, v ∈ nextVersionNames avs ∧ vr.lookup v = some s ∧
          isFailedStatus s = true))) ∧
    (∀ r ∈ (analyze_regressions tr avs).1, r.test_name = t →
      r.severity =
        if ((outcomesFor (nextVersionNames avs) vr).all fun q => isFailedStatus q.2) = true
        then "HIGH" else "MEDIUM") ∧
    (((outcomesFor (nextVersionNames avs) vr).all fun q => isFailedStatus q.2) = true ↔
      ∀ v ∈ nextVersionNames avs, ∀ s, vr.lookup v = some s → isFailedStatus s = true) := by
  have hreg : (analyze_regressions tr avs).1 =
      tr.filterMap (fun p =>
        regressionCheck (stableVersionNames avs) (nextVersionNames avs) p.1 p.2) := rfl
  have hchar : ∀ r : RegressionRec,
      (r ∈ (analyze_regressions tr avs).1 ∧ r.test_name = t) ↔
        regressionCheck (stableVersionNames avs) (nextVersionNames avs) t vr = some r := by
    rw [hreg]
    exact filterMap_key_char _ RegressionRec.test_name
      (regressionCheck_name (stableVersionNames avs) (nextVersionNames avs)) tr hnd t vr hmem
  have hsoE : (outcomesFor (stableVersionNames avs) vr).isEmpty = false := by
    cases hcase : outcomesFor (stableVersionNames avs) vr with
    | nil => exact absurd hcase (outcomesFor_ne_nil.mpr hso)
    | cons a l => rfl
  have hnoE : (outcomesFor (nextVersionNames avs) vr).isEmpty = false := by
    cases hcase : outcomesFor (nextVersionNames avs) vr with
    | nil => exact absurd hcase (outcomesFor_ne_nil.mpr hno)
    | cons a l => rfl
  have hcondE : ¬ ((outcomesFor (stableVersionNames avs) vr).isEmpty ||
      (outcomesFor (nextVersionNames avs) vr).isEmpty) = true := by
    rw [hsoE, hnoE]
    exact Bool.false_ne_true
  have hpassed :
      ((outcomesFor (stableVersionNames avs) vr).any fun q => q.2 = "PASSED") = true ↔
        ∃ v ∈ stableVersionNames avs, vr.lookup v = some "PASSED" := by
    rw [any_outcomesFor]
    constructor
    · rintro ⟨v, s, h1, h2, hp⟩
      simp only [decide_eq_true_eq] at hp
      subst hp
      exact ⟨v, h1, h2⟩
    · rintro ⟨v, h1, h2⟩
      exact ⟨v, "PASSED", h1, h2, by simp⟩
  have hfailed :
      ((outcomesFor (nextVersionNames avs) vr).any fun q => isFailedStatus q.2) = true ↔
        ∃ v s, v ∈ nextVersionNames avs ∧ vr.lookup v = some s ∧
          isFailedStatus s = true := by
    rw [any_outcomesFor]
  refine ⟨?_, ?_, ?_⟩
  · constructor
    · rintro ⟨r, hr, hname⟩
      have h := (hchar r).mp ⟨hr, hname⟩
      unfold regressionCheck at h
      rw [if_neg hcondE] at h
      by_cases hA : (((outcomesFor (stableVersionNames avs) vr).any fun q =>
          q.2 = "PASSED") && ((outcomesFor (nextVersionNames avs) vr).any fun q =>
          isFailedStatus q.2)) = true
      · rw [Bool.and_eq_true] at hA
        exact ⟨hpassed.mp hA.1, hfailed.mp hA.2⟩
      · rw [if_neg hA] at h
        cases h
    · rintro ⟨hP, hF⟩
      have hcond2 : (((outcomesFor (stableVersionNames avs) vr).any fun q =>
          q.2 = "PASSED") && ((outcomesFor (nextVersionNames avs) vr).any fun q =>
          isFailedStatus q.2)) = true :=
        by rw [Bool.and_eq_true]; exact ⟨hpassed.mpr hP, hfailed.mpr hF⟩
      have hsome : regressionCheck (stableVersionNames avs) (nextVersionNames avs) t vr =
          some ⟨t, outcomesFor (stableVersionNames avs) vr,
            outcomesFor (nextVersionNames avs) vr,
            if (outcomesFor (nextVersionNames avs) vr).all fun q => isFailedStatus q.2
            then "HIGH" else "MEDIUM"⟩ := by
        unfold regressionCheck
        rw [if_neg hcondE, if_pos hcond2]
      exact ⟨_, ((hchar _).mpr hsome).1, ((hchar _).mpr hsome).2⟩
  · intro r hr hname
    have h := (hchar r).mp ⟨hr, hname⟩
    unfold regressionCheck at h
    rw [if_neg hcondE] at h
    by_cases hA : (((outcomesFor (stableVersionNames avs) vr).any fun q =>
        q.2 = "PASSED") && ((outcomesFor (nextVersionNames avs) vr).any fun q =>
        isFailedStatus q.2)) = true
    · rw [if_pos hA] at h
      injection h with h'
      rw [← h']
    · rw [if_neg hA] at h
      cases h
  · exact all_outcomesFor

/-- C4 (witness): stable `cloud: PASSED` with `next_a, next_b: FAILED` is a
HIGH severity regression; flipping `next_b` to `PASSED` downgrades it to
MEDIUM. -/
theorem regression_classification_witness :
    (∃ r ∈ (analyze_regressions
        [("Y", [("cloud", "PASSED"), ("next_a", "FAILED"), ("next_b", "FAILED")])]
        ["cloud", "next_a", "next_b"]).1, r.test_name = "Y") ∧
    (analyze_regressions
        [("Y", [("cloud", "PASSED"), ("next_a", "FAILED"), ("next_b", "FAILED")])]
        ["cloud", "next_a", "next_b"]).1 =
      [⟨"Y", [("cloud", "PASSED")], [("next_a", "FAILED"), ("next_b", "FAILED")], "HIGH"⟩] ∧
    (analyze_regressions
        [("Y", [("cloud", "PASSED"), ("next_a", "FAILED"), ("next_b", "PASSED")])]
        ["cloud", "next_a", "next_b"]).1 =
      [⟨"Y", [("cloud", "PASSED")], [("next_a", "FAILED"), ("next_b", "PASSED")], "MEDIUM"⟩] := by
  have h := regression_classification
      [("Y", [("cloud", "PASSED"), ("next_a", "FAILED"), ("next_b", "FAILED")])]
      ["cloud", "next_a", "next_b"] "Y"
      [("cloud", "PASSED"), ("next_a", "FAILED"), ("next_b", "FAILED")]
      (by decide) (by decide) ⟨"cloud", by decide, by decide⟩
      ⟨"next_a", by decide, by decide⟩
  refine ⟨h.1.mpr ⟨⟨"cloud", by decide, by decide⟩,
    ⟨"next_a", "FAILED", by decide, by decide, by decide⟩⟩, by decide, by decide⟩

end SanityAgg
